import Mathlib

/-!
# A verification model of `DXW.py` (DXAlarm bot)

This file gives a shallow embedding, in Lean, of the pure core of the
Python program `DXW.py`: call-sign normalization, VE7CC line parsing,
band/mode classification, target matching, the dedup gate, and the
per-iteration timer logic of the monitoring loop (keepalive and watchdog).

Modelling conventions:
* Python strings are Lean `String`s; all character-level work is done on
  `String.toList` with hand-rolled executable helpers, so that every
  definition reduces in the kernel.
* `str.upper()` is modelled ASCII-wise by `Char.toUpper` (the data of the
  program — call signs, band and mode labels — is ASCII).
* `datetime` instants are modelled as `Int` seconds; a `timedelta` of
  `m` minutes is `m * 60` seconds.  Subtraction and comparison are exact,
  as in Python.
* `float(...)` is modelled by `parseFloat`, an exact-rational reading of
  the Python decimal/exponent literal syntax (optional surrounding
  whitespace, optional sign, digits with an optional fraction part and an
  optional exponent).  The model omits `inf`/`nan` spellings and digit
  underscores; `inf`/`nan` fall outside every band range in the program,
  so the classification result is unchanged.
* The global dict `last_spots` is threaded explicitly as an association
  list `CallMap`; `datetime.utcnow()` becomes an explicit `now` argument.
* Sending a Telegram message is modelled by emitting a `Msg` record that
  carries exactly the fields interpolated into the message text.
-/

namespace DXW

/-- ASCII whitespace recognizer, modelling Python `str.strip()` /
`float()` whitespace handling on the ASCII data of the program. -/
def isSpaceChar (c : Char) : Bool :=
  c = ' ' || c = '\t' || c = '\n' || c = '\r' || c = '\x0b' || c = '\x0c'

/-- Characters kept by the regex class `[A-Z0-9/]` of `normalize_call`,
stated on ASCII code points. -/
def isCallChar (c : Char) : Bool :=
  decide ((65 ≤ c.toNat ∧ c.toNat ≤ 90) ∨ (48 ≤ c.toNat ∧ c.toNat ≤ 57) ∨ c.toNat = 47)

/-- Python `s.upper()`, ASCII model: uppercase each character. -/
def strUpper (s : String) : String :=
  (s.toList.map Char.toUpper).asString

/-- Model of `normalize_call(c)`: upper-case, then drop every character
outside `[A-Z0-9/]` (the `re.sub` of the source). -/
def normalize_call (c : String) : String :=
  ((strUpper c).toList.filter isCallChar).asString

/-- Python `line.split("^")` at the character-list level (the separator
is the single character `^`). -/
def splitCaret : List Char → List (List Char)
  | [] => [[]]
  | c :: r =>
    match splitCaret r with
    | [] => [[]]
    | cur :: rest => if c = '^' then [] :: cur :: rest else (c :: cur) :: rest

/-- Python `s or d` for strings: the default replaces the empty string. -/
def orDefault (s d : String) : String :=
  if s = "" then d else s

/-- Python `p.isPrefixOf`-style `startswith` on strings. -/
def startsWith (p s : String) : Bool :=
  p.toList.isPrefixOf s.toList

/-- Python `s.strip()` (ASCII whitespace model). -/
def stripWS (s : String) : String :=
  (((s.toList.dropWhile isSpaceChar).reverse.dropWhile isSpaceChar).reverse).asString

/-- ASCII digit recognizer (`[0-9]`). -/
def isDigitChar (c : Char) : Bool :=
  decide (48 ≤ c.toNat ∧ c.toNat ≤ 57)

/-- Numeric value of a digit character. -/
def digitVal (c : Char) : Nat := c.toNat - 48

/-- The natural number denoted by a digit string (most significant first). -/
def natOfDigits (l : List Char) : Nat :=
  l.foldl (fun a c => 10 * a + digitVal c) 0

/-- Exponent tail of a float literal after `e`/`E`: optionally signed
digits, consuming the whole rest of the input. -/
def parseSignedDigits (l : List Char) : Option Int :=
  match l with
  | '+' :: d => if d ≠ [] ∧ d.all isDigitChar then some (natOfDigits d) else none
  | '-' :: d => if d ≠ [] ∧ d.all isDigitChar then some (-(natOfDigits d : Int)) else none
  | d => if d ≠ [] ∧ d.all isDigitChar then some (natOfDigits d) else none

/-- Optional exponent part of a float literal (empty input means
exponent `0`). -/
def parseExp (l : List Char) : Option Int :=
  match l with
  | [] => some 0
  | 'e' :: r => parseSignedDigits r
  | 'E' :: r => parseSignedDigits r
  | _ => none

/-- An exact decimal value `mant * 10 ^ ex`, the result of reading a
float literal.  Kept in integer form so that every comparison reduces in
the kernel; `toRat` gives its value in `ℚ`. -/
structure DecNum where
  mant : Int
  ex : Int
deriving Repr, DecidableEq

/-- The rational value of a `DecNum`. -/
def DecNum.toRat (d : DecNum) : ℚ :=
  (d.mant : ℚ) * (10 : ℚ) ^ d.ex

/-- Comparison `b ≤ d` as executable integer arithmetic. -/
def DecNum.intLe (b : Int) (d : DecNum) : Bool :=
  if 0 ≤ d.ex then b ≤ d.mant * ((10 ^ d.ex.toNat : Nat) : Int)
  else b * ((10 ^ (-d.ex).toNat : Nat) : Int) ≤ d.mant

/-- Comparison `d ≤ b` as executable integer arithmetic. -/
def DecNum.leInt (d : DecNum) (b : Int) : Bool :=
  if 0 ≤ d.ex then d.mant * ((10 ^ d.ex.toNat : Nat) : Int) ≤ b
  else d.mant ≤ b * ((10 ^ (-d.ex).toNat : Nat) : Int)

/-- Unsigned float literal: digits with an optional `.` fraction (at
least one digit overall) and an optional exponent, read exactly. -/
def parseUnsigned (l : List Char) : Option DecNum :=
  let ip := l.takeWhile isDigitChar
  let r1 := l.dropWhile isDigitChar
  match r1 with
  | '.' :: r2 =>
    let fp := r2.takeWhile isDigitChar
    let r3 := r2.dropWhile isDigitChar
    if ip = [] ∧ fp = [] then none
    else
      match parseExp r3 with
      | some e => some ⟨(natOfDigits ip : Int) * ((10 ^ fp.length : Nat) : Int) + (natOfDigits fp : Int), e - fp.length⟩
      | none => none
  | r =>
    if ip = [] then none
    else
      match parseExp r with
      | some e => some ⟨(natOfDigits ip : Int), e⟩
      | none => none

/-- Python `float(s)` on the frequency texts of the program: exact model of
the decimal/exponent literal syntax (see the file comment for the
modelled scope); `none` plays the role of `ValueError`. -/
def parseFloat (s : String) : Option DecNum :=
  let l := ((s.toList.dropWhile isSpaceChar).reverse.dropWhile isSpaceChar).reverse
  match l with
  | '+' :: r => parseUnsigned r
  | '-' :: r => (parseUnsigned r).map (fun d => ⟨-d.mant, d.ex⟩)
  | r => parseUnsigned r

/-- The band table of `freq_to_band`, in source order: inclusive kHz
ranges with their labels. -/
def bands : List (Int × Int × String) :=
  [ (1800, 2000, "160m"),
    (3500, 3800, "80m"),
    (5300, 5400, "60m"),
    (7000, 7200, "40m"),
    (10100, 10150, "30m"),
    (14000, 14350, "20m"),
    (18068, 18168, "17m"),
    (21000, 21450, "15m"),
    (24890, 24990, "12m"),
    (28000, 29700, "10m"),
    (50000, 54000, "6m") ]

/-- Model of `freq_to_band(freq_str)`: parse the frequency; on failure return
`"?"`; otherwise return the label of the first table range containing it
(both endpoints included), or `"?"` when none does. -/
def freq_to_band (freq_str : String) : String :=
  match parseFloat freq_str with
  | none => "?"
  | some freq =>
    match bands.find? (fun b => DecNum.intLe b.1 freq && DecNum.leInt freq b.2.1) with
    | some b => b.2.2
    | none => "?"

/-- Substring test on strings (`needle in hay` in Python). -/
def containsSub (needle hay : String) : Bool :=
  hay.toList.tails.any (fun t => needle.toList.isPrefixOf t)

/-- Model of `extract_mode(info_str)`: upper-case the comment, return the first of
`CW`, `FT8`, `RTTY` occurring as a substring; else `SSB` when any of
`SSB`, `USB`, `LSB` occurs; else `"?"`. -/
def extract_mode (info_str : String) : String :=
  let info := strUpper info_str
  match ["CW", "FT8", "RTTY"].find? (fun m => containsSub m info) with
  | some m => m
  | none =>
    if ["SSB", "USB", "LSB"].any (fun s => containsSub s info) then "SSB"
    else "?"

/-- The dict returned by `parse_ve7cc_line`. -/
structure Spot where
  freq : String
  call : String
  datetime : String
  info : String
  spotter : String
  band : String
  mode : String
deriving Repr, DecidableEq

/-- Model of `parse_ve7cc_line(line)`: split on `^`; fewer than 7 fields
gives `None`; otherwise build the spot from fields 1–6 with the
`or`-defaults of the source, deriving band and mode. -/
def parse_ve7cc_line (line : String) : Option Spot :=
  let parts := (splitCaret line.toList).map List.asString
  if parts.length < 7 then none
  else
    let freq := orDefault (parts.getD 1 "") "?"
    let call := orDefault (parts.getD 2 "") "?"
    let date := orDefault (parts.getD 3 "") ""
    let time_utc := orDefault (parts.getD 4 "") ""
    let info := orDefault (parts.getD 5 "") ""
    let spotter := orDefault (parts.getD 6 "") "?"
    some
      { freq := freq
        call := call
        datetime := date ++ " " ++ time_utc
        info := info
        spotter := spotter
        band := freq_to_band freq
        mode := extract_mode info }

/-- A `targets` entry from `config.json`; absent keys are modelled by
their `dict.get` defaults (`""` for `call`, `[]` for `bands`/`modes`). -/
structure Target where
  call : String
  bands : List String
  modes : List String
deriving Repr, DecidableEq

/-- Model of `matches_target(parsed, target)`: normalized call equality, then the
optional band filter, then the optional mode filter. -/
def matches_target (parsed : Spot) (target : Target) : Bool :=
  let call_n := normalize_call parsed.call
  let t_call := normalize_call target.call
  if call_n ≠ t_call then false
  else
    let bandsU := target.bands.map strUpper
    let modesU := target.modes.map strUpper
    if bandsU ≠ [] ∧ strUpper parsed.band ∉ bandsU then false
    else if modesU ≠ [] ∧ strUpper parsed.mode ∉ modesU then false
    else true

/-- The global `last_spots` dict: normalized call ↦ last-sent instant
(seconds). -/
abbrev CallMap := List (String × Int)

/-- Dict lookup `last_spots.get(call)`. -/
def lookupCall (m : CallMap) (k : String) : Option Int :=
  (m.find? (fun p => p.1 = k)).map Prod.snd

/-- Dict update `last_spots[call] = now` (overwrite or append). -/
def setCall (m : CallMap) (k : String) (v : Int) : CallMap :=
  match m with
  | [] => [(k, v)]
  | p :: r => if p.1 = k then (k, v) :: r else p :: setCall r k v

/-- Model of `should_send(call, dedup_min)`: suppress when a record exists and
less than `dedup_min` minutes elapsed; otherwise record `now` and allow.
The global dict and `utcnow()` are explicit arguments; the updated dict
is returned. -/
def should_send (last_spots : CallMap) (call : String) (dedup_min : Int) (now : Int) :
    Bool × CallMap :=
  match lookupCall last_spots call with
  | some last_time =>
    if now - last_time < dedup_min * 60 then (false, last_spots)
    else (true, setCall last_spots call now)
  | none => (true, setCall last_spots call now)

/-- One Telegram notification, modelled by the fields the listener
interpolates into the message text. -/
structure Msg where
  call : String
  freq : String
  band : String
  mode : String
  datetime : String
  info : String
  spotter : String
deriving Repr, DecidableEq

/-- The message built from a parsed spot in the send branch of the listener. -/
def msgOfSpot (p : Spot) : Msg :=
  ⟨p.call, p.freq, p.band, p.mode, p.datetime, p.info, p.spotter⟩

/-- The `for target in targets` loop body of the listener for one parsed spot:
match, gate through `should_send`, and send.  Returns the updated dedup
dict and the messages sent, in target order. -/
def processTargets (dedup_min : Int) (parsed : Spot) (now : Int) :
    List Target → CallMap → CallMap × List Msg
  | [], m => (m, [])
  | t :: rest, m =>
    if matches_target parsed t then
      let call_n := normalize_call parsed.call
      let res := should_send m call_n dedup_min now
      let recRes := processTargets dedup_min parsed now rest res.2
      if res.1 then (recRes.1, msgOfSpot parsed :: recRes.2) else (recRes.1, recRes.2)
    else processTargets dedup_min parsed now rest m

/-- The handling by the listener of one non-empty text line: lines with the
`CC` marker are parsed and dispatched; parse failures and other lines
send nothing. -/
def processLine (targets : List Target) (dedup_min : Int) (m : CallMap) (now : Int)
    (text : String) : CallMap × List Msg :=
  if startsWith "CC" text then
    match parse_ve7cc_line text with
    | some parsed => processTargets dedup_min parsed now targets m
    | none => (m, [])
  else (m, [])

/-- A run of the listener over a sequence of delivered text lines, each
tagged with the `utcnow()` instant at which it is handled; messages in
the output are tagged with their send instant. -/
def runLines (targets : List Target) (dedup_min : Int) :
    CallMap → List (Int × String) → CallMap × List (Int × Msg)
  | m, [] => (m, [])
  | m, (now, text) :: rest =>
    let r := processLine targets dedup_min m now text
    let recRes := runLines targets dedup_min r.1 rest
    (recRes.1, r.2.map (fun x => (now, x)) ++ recRes.2)

/-- Source constant `keepalive_interval = timedelta(minutes=10)`, in seconds. -/
def keepalive_interval : Int := 600

/-- Source constant `max_inactive = timedelta(minutes=15)`, in seconds. -/
def max_inactive : Int := 900

/-- State of the inner monitoring loop between iterations. -/
structure ListenerState where
  now : Int
  lastActivity : Int
  spots : CallMap
  closed : Bool
deriving Repr, DecidableEq

/-- Fresh state on entering the inner loop (`last_activity =
datetime.utcnow()`). -/
def initState (t0 : Int) : ListenerState :=
  { now := t0, lastActivity := t0, spots := [], closed := false }

/-- One iteration of the inner `while True` loop.  `δ` is the wall-clock
time consumed by the bounded read; `line = none` models a read timeout,
`some raw` a delivered line.  A non-empty stripped line is handled and
refreshes `last_activity`; a blank line `continue`s past the timer
checks; then the keepalive branch (which refreshes `last_activity`) runs
before the watchdog branch, which closes the session. -/
def loopStep (targets : List Target) (dedup_min : Int) (s : ListenerState)
    (δ : Int) (line : Option String) : ListenerState × List Msg :=
  if s.closed then (s, []) else
  let now := s.now + δ
  match line with
  | some raw =>
    let text := stripWS raw
    if text = "" then ({ s with now := now }, [])
    else
      let r := processLine targets dedup_min s.spots now text
      let la := now
      let la2 := if now - la ≥ keepalive_interval then now else la
      let cl := now - la2 ≥ max_inactive
      ({ now := now, lastActivity := la2, spots := r.1, closed := cl }, r.2)
  | none =>
    let la := s.lastActivity
    let la2 := if now - la ≥ keepalive_interval then now else la
    let cl := now - la2 ≥ max_inactive
    ({ now := now, lastActivity := la2, spots := s.spots, closed := cl }, [])

/-- A run of the inner loop over a sequence of iterations. -/
def runSteps (targets : List Target) (dedup_min : Int) :
    ListenerState → List (Int × Option String) → ListenerState
  | s, [] => s
  | s, (δ, line) :: rest => runSteps targets dedup_min (loopStep targets dedup_min s δ line).1 rest

/-! ## Helper lemmas -/

theorem toList_asString (l : List Char) : (List.asString l).toList = l := rfl

theorem asString_toList (s : String) : s.toList.asString = s := rfl

theorem isCallChar_iff (c : Char) :
    isCallChar c = true ↔
      (65 ≤ c.toNat ∧ c.toNat ≤ 90) ∨ (48 ≤ c.toNat ∧ c.toNat ≤ 57) ∨ c.toNat = 47 := by
  simp [isCallChar]

theorem toUpper_of_callChar (c : Char) (h : isCallChar c = true) : c.toUpper = c := by
  rw [isCallChar_iff] at h
  unfold Char.toUpper
  rw [if_neg (by omega)]

theorem lookup_setCall_self (m : CallMap) (k : String) (v : Int) :
    lookupCall (setCall m k v) k = some v := by
  induction m with
  | nil => simp [setCall, lookupCall, List.find?]
  | cons p r ih =>
    by_cases h : p.1 = k
    · simp [setCall, h, lookupCall, List.find?]
    · simpa [setCall, h, lookupCall, List.find?] using ih

theorem lookup_setCall_ne (m : CallMap) (k k' : String) (v : Int) (h : k' ≠ k) :
    lookupCall (setCall m k v) k' = lookupCall m k' := by
  induction m with
  | nil => simp [setCall, lookupCall, List.find?, h, Ne.symm h]
  | cons p r ih =>
    by_cases hp : p.1 = k
    · subst hp
      simp [setCall, lookupCall, List.find?, h, Ne.symm h]
    · by_cases hq : p.1 = k'
      · simp [setCall, hp, lookupCall, List.find?, hq, h]
      · simpa [setCall, hp, lookupCall, List.find?, hq] using ih

theorem toNat_ofNat_valid (n : Nat) (h : Nat.isValidChar n) : (Char.ofNat n).toNat = n := by
  unfold Char.ofNat
  rw [dif_pos h]
  rfl

theorem toUpper_idem (c : Char) : (c.toUpper).toUpper = c.toUpper := by
  unfold Char.toUpper
  by_cases h : c.toNat ≥ 97 ∧ c.toNat ≤ 122
  · rw [if_pos h]
    have hv : Nat.isValidChar (c.toNat - 32) := by left; omega
    rw [toNat_ofNat_valid _ hv, if_neg (by omega)]
  · rw [if_neg h, if_neg h]

theorem strUpper_idem (s : String) : strUpper (strUpper s) = strUpper s := by
  show ((s.toList.map Char.toUpper).map Char.toUpper).asString = (s.toList.map Char.toUpper).asString
  rw [List.map_map]
  congr 1
  exact List.map_congr_left (fun a _ => toUpper_idem a)

theorem orDefault_empty (s : String) : orDefault s "" = s := by
  unfold orDefault
  split_ifs with h
  · exact h.symm
  · rfl

/-! ## Claim theorems -/

/-- C6: `normalize_call` is idempotent, every character of its output lies
in the class `[A-Z0-9/]`, its output is the filtered upper-casing of the
input, and `normalize_call "vk3-abc " = "VK3ABC"`. -/
theorem C6_normalize_call_idempotent :
    (∀ x : String, normalize_call (normalize_call x) = normalize_call x) ∧
    (∀ x : String, ∀ c ∈ (normalize_call x).toList, isCallChar c = true) ∧
    (∀ x : String,
      (normalize_call x).toList = (x.toList.map Char.toUpper).filter isCallChar) ∧
    normalize_call "vk3-abc " = "VK3ABC" := by
  have hmem : ∀ x : String, ∀ c ∈ (normalize_call x).toList, isCallChar c = true := by
    intro x c hc
    exact List.of_mem_filter hc
  refine ⟨fun x => ?_, hmem, fun x => rfl, by decide⟩
  show (((normalize_call x).toList.map Char.toUpper).filter isCallChar).asString
      = normalize_call x
  have h1 : (normalize_call x).toList.map Char.toUpper = (normalize_call x).toList := by
    rw [List.map_congr_left (fun a ha => toUpper_of_callChar a (hmem x a ha))]
    exact List.map_id _
  rw [h1, List.filter_eq_self.mpr (fun a ha => hmem x a ha), asString_toList]

/-- C6 witness: the idempotence and closure parts applied at a concrete
input. -/
theorem C6_normalize_call_idempotent_witness :
    normalize_call (normalize_call "vk3-abc ") = normalize_call "vk3-abc " ∧
      isCallChar 'V' = true :=
  ⟨C6_normalize_call_idempotent.1 "vk3-abc ",
   C6_normalize_call_idempotent.2.1 "vk3-abc " 'V' (by decide)⟩

/-- C2: `should_send` allows and records `now` when no record for the call
exists or the elapsed time reaches the window; it suppresses and leaves
the dict unchanged when a record exists and the elapsed time is below the
window; recording overwrites only the entry of that call. -/
theorem C2_should_send_contract (m : CallMap) (call : String) (w now : Int) :
    (lookupCall m call = none →
        should_send m call w now = (true, setCall m call now)) ∧
    (∀ last, lookupCall m call = some last → w * 60 ≤ now - last →
        should_send m call w now = (true, setCall m call now)) ∧
    (∀ last, lookupCall m call = some last → now - last < w * 60 →
        should_send m call w now = (false, m)) ∧
    (lookupCall (setCall m call now) call = some now) ∧
    (∀ k, k ≠ call → lookupCall (setCall m call now) k = lookupCall m k) := by
  refine ⟨fun h => ?_, fun last h hle => ?_, fun last h hlt => ?_,
    lookup_setCall_self m call now, fun k hk => lookup_setCall_ne m call k now hk⟩
  · unfold should_send
    rw [h]
  · unfold should_send
    rw [h]
    show (if now - last < w * 60 then ((false, m) : Bool × CallMap)
        else (true, setCall m call now)) = (true, setCall m call now)
    rw [if_neg (by omega)]
  · unfold should_send
    rw [h]
    show (if now - last < w * 60 then ((false, m) : Bool × CallMap)
        else (true, setCall m call now)) = (false, m)
    rw [if_pos hlt]

/-- C2 witness: the three branches of the contract at concrete inputs. -/
theorem C2_should_send_contract_witness :
    should_send [] "VK3ABC" 30 100 = (true, setCall [] "VK3ABC" 100) ∧
    should_send [("VK3ABC", 100)] "VK3ABC" 30 1960 = (true, setCall [("VK3ABC", 100)] "VK3ABC" 1960) ∧
    should_send [("VK3ABC", 100)] "VK3ABC" 30 1840 = (false, [("VK3ABC", 100)]) :=
  ⟨(C2_should_send_contract [] "VK3ABC" 30 100).1 (by decide),
   (C2_should_send_contract [("VK3ABC", 100)] "VK3ABC" 30 1960).2.1 100 (by decide) (by decide),
   (C2_should_send_contract [("VK3ABC", 100)] "VK3ABC" 30 1840).2.2.1 100 (by decide) (by decide)⟩

/-- C9: when a record exists and the elapsed time equals the window
exactly, the strict `<` in `should_send` makes it allow and overwrite the
record. -/
theorem C9_should_send_boundary (m : CallMap) (call : String) (w last : Int)
    (h : lookupCall m call = some last) :
    should_send m call w (last + w * 60) = (true, setCall m call (last + w * 60)) := by
  unfold should_send
  rw [h]
  show (if last + w * 60 - last < w * 60 then ((false, m) : Bool × CallMap)
      else (true, setCall m call (last + w * 60))) = (true, setCall m call (last + w * 60))
  rw [if_neg (by omega)]

/-- C9 witness: with a 30-minute window, a call recorded at time 100 is
allowed again exactly 1800 seconds later. -/
theorem C9_should_send_boundary_witness :
    should_send [("VK3ABC", 100)] "VK3ABC" 30 (100 + 30 * 60) =
      (true, setCall [("VK3ABC", 100)] "VK3ABC" (100 + 30 * 60)) :=
  C9_should_send_boundary [("VK3ABC", 100)] "VK3ABC" 30 100 (by decide)

/-- C10: normalization is not injective (two raw-distinct strings collide
after normalization), the defaulted call field `"?"` normalizes to the
empty string, and a spot parsed from a line with an empty call field
matches an unrestricted target whose call is missing (modelled by `""`). -/
theorem C10_normalize_collision :
    (normalize_call "vk3abc" = normalize_call "VK3-ABC" ∧ "vk3abc" ≠ "VK3-ABC") ∧
    normalize_call "?" = "" ∧
    normalize_call "" = "" ∧
    parse_ve7cc_line "CC^14074.0^^2024-01-01^10:00^FT8 CQ^W1AW" =
      some { freq := "14074.0", call := "?", datetime := "2024-01-01 10:00",
             info := "FT8 CQ", spotter := "W1AW", band := "20m", mode := "FT8" } ∧
    matches_target
      { freq := "14074.0", call := "?", datetime := "2024-01-01 10:00",
        info := "FT8 CQ", spotter := "W1AW", band := "20m", mode := "FT8" }
      { call := "", bands := [], modes := [] } = true := by
  refine ⟨⟨by decide, by decide⟩, by decide, by decide, by decide, by decide⟩

/-- C5: `extract_mode` scans the upper-cased comment for `CW`, `FT8`,
`RTTY` in that priority order and returns the first occurring; failing
those, any of `SSB`, `USB`, `LSB` yields `SSB`; otherwise `"?"`.  The
scan is case-insensitive: upper-casing the input does not change the
result.  Examples: `"CW FT8" ↦ "CW"`, `"USB QSO" ↦ "SSB"`,
`"hello" ↦ "?"`. -/
theorem C5_extract_mode_priority :
    (∀ s : String, containsSub "CW" (strUpper s) = true → extract_mode s = "CW") ∧
    (∀ s : String, containsSub "CW" (strUpper s) = false →
        containsSub "FT8" (strUpper s) = true → extract_mode s = "FT8") ∧
    (∀ s : String, containsSub "CW" (strUpper s) = false →
        containsSub "FT8" (strUpper s) = false →
        containsSub "RTTY" (strUpper s) = true → extract_mode s = "RTTY") ∧
    (∀ s : String, containsSub "CW" (strUpper s) = false →
        containsSub "FT8" (strUpper s) = false →
        containsSub "RTTY" (strUpper s) = false →
        (containsSub "SSB" (strUpper s) || containsSub "USB" (strUpper s) ||
          containsSub "LSB" (strUpper s)) = true → extract_mode s = "SSB") ∧
    (∀ s : String, containsSub "CW" (strUpper s) = false →
        containsSub "FT8" (strUpper s) = false →
        containsSub "RTTY" (strUpper s) = false →
        containsSub "SSB" (strUpper s) = false →
        containsSub "USB" (strUpper s) = false →
        containsSub "LSB" (strUpper s) = false → extract_mode s = "?") ∧
    (∀ s : String, extract_mode (strUpper s) = extract_mode s) ∧
    extract_mode "CW FT8" = "CW" ∧ extract_mode "USB QSO" = "SSB" ∧
    extract_mode "hello" = "?" := by
  refine ⟨fun s h1 => ?_, fun s h1 h2 => ?_, fun s h1 h2 h3 => ?_,
    fun s h1 h2 h3 h4 => ?_, fun s h1 h2 h3 h4 h5 h6 => ?_, fun s => ?_,
    by decide, by decide, by decide⟩
  · simp [extract_mode, List.find?, h1]
  · simp [extract_mode, List.find?, h1, h2]
  · simp [extract_mode, List.find?, h1, h2, h3]
  · rcases Bool.or_eq_true_iff.mp h4 with h | h
    · rcases Bool.or_eq_true_iff.mp h with h' | h'
      · simp [extract_mode, List.find?, h1, h2, h3, h']
      · simp [extract_mode, List.find?, h1, h2, h3, h']
    · simp [extract_mode, List.find?, h1, h2, h3, h]
  · simp [extract_mode, List.find?, h1, h2, h3, h4, h5, h6]
  · unfold extract_mode
    rw [strUpper_idem]

/-- C5 witness: the priority branches applied at concrete comments. -/
theorem C5_extract_mode_priority_witness :
    extract_mode "CQ cw test" = "CW" ∧ extract_mode "lsb net" = "SSB" :=
  ⟨C5_extract_mode_priority.1 "CQ cw test" (by decide),
   C5_extract_mode_priority.2.2.2.1 "lsb net" (by decide) (by decide) (by decide) (by decide)⟩

/-- C7: `parse_ve7cc_line` yields `none` exactly when the line has fewer
than seven caret-separated fields; otherwise the spot fields come from
field indices 1 to 6, with empty frequency, call and spotter defaulting
to `"?"`, empty date, time and comment staying empty, the datetime being
the space-joined date and time fields without validation, and band and
mode derived from the frequency and comment fields. -/
theorem C7_parse_ve7cc_line_spec (line : String) :
    (parse_ve7cc_line line = none ↔
      ((splitCaret line.toList).map List.asString).length < 7) ∧
    (∀ s, parse_ve7cc_line line = some s →
      s.freq = orDefault (((splitCaret line.toList).map List.asString).getD 1 "") "?" ∧
      s.call = orDefault (((splitCaret line.toList).map List.asString).getD 2 "") "?" ∧
      s.datetime = ((splitCaret line.toList).map List.asString).getD 3 "" ++ " " ++
        ((splitCaret line.toList).map List.asString).getD 4 "" ∧
      s.info = orDefault (((splitCaret line.toList).map List.asString).getD 5 "") "" ∧
      s.spotter = orDefault (((splitCaret line.toList).map List.asString).getD 6 "") "?" ∧
      s.band = freq_to_band s.freq ∧
      s.mode = extract_mode s.info) := by
  by_cases hlen : ((splitCaret line.toList).map List.asString).length < 7
  · constructor
    · simp [parse_ve7cc_line, hlen]
    · intro s hs
      simp [parse_ve7cc_line] at hs
      have hlen2 : (splitCaret line.data).length < 7 := by simpa using hlen
      obtain ⟨h7, -⟩ := hs
      omega
  · constructor
    · simp [parse_ve7cc_line, hlen]
    · intro s hs
      unfold parse_ve7cc_line at hs
      rw [if_neg hlen] at hs
      have hs' := (Option.some_injective _ hs.symm).symm
      subst hs'
      refine ⟨rfl, rfl, ?_, ?_, rfl, rfl, rfl⟩
      · rw [orDefault_empty, orDefault_empty]
      · rw [orDefault_empty]

/-- C7 witness: the full-shape branch applied at the end-to-end line and
the short-line branch at a three-field line. -/
theorem C7_parse_ve7cc_line_spec_witness :
    ((parse_ve7cc_line "CC^14074.0^VK3ABC" = none) ∧
      (∀ s, parse_ve7cc_line "CC^14074.0^VK3ABC^2024-01-01^10:00^FT8 CQ^W1AW" = some s →
        s.datetime = "2024-01-01" ++ " " ++ "10:00")) := by
  constructor
  · exact (C7_parse_ve7cc_line_spec "CC^14074.0^VK3ABC").1.mpr (by decide)
  · intro s hs
    have h := ((C7_parse_ve7cc_line_spec "CC^14074.0^VK3ABC^2024-01-01^10:00^FT8 CQ^W1AW").2 s hs).2.2.1
    simpa using h

/-- C8: `matches_target` holds exactly when the normalized calls agree,
the upper-cased spot band is in the target band list whenever that
list is non-empty, and likewise for modes; a call mismatch rejects
regardless of band and mode, and a target with empty band and mode lists
matches on call alone. -/
theorem C8_matches_target_spec (p : Spot) (t : Target) :
    (matches_target p t = true ↔
      (normalize_call p.call = normalize_call t.call ∧
       (t.bands ≠ [] → strUpper p.band ∈ t.bands.map strUpper) ∧
       (t.modes ≠ [] → strUpper p.mode ∈ t.modes.map strUpper))) ∧
    (normalize_call p.call ≠ normalize_call t.call → matches_target p t = false) ∧
    (t.bands = [] → t.modes = [] →
      (matches_target p t = true ↔ normalize_call p.call = normalize_call t.call)) := by
  have key : matches_target p t = true ↔
      (normalize_call p.call = normalize_call t.call ∧
       (t.bands ≠ [] → strUpper p.band ∈ t.bands.map strUpper) ∧
       (t.modes ≠ [] → strUpper p.mode ∈ t.modes.map strUpper)) := by
    simp only [matches_target]
    split_ifs with h1 h2 h3
    · simp [h1]
    · simp only [ne_eq, List.map_eq_nil_iff] at h2
      simp only [Bool.false_eq_true, false_iff]
      rintro ⟨-, hb, -⟩
      exact h2.2 (hb h2.1)
    · simp only [ne_eq, List.map_eq_nil_iff] at h3
      simp only [Bool.false_eq_true, false_iff]
      rintro ⟨-, -, hm⟩
      exact h3.2 (hm h3.1)
    · push_neg at h1 h2 h3
      simp only [true_iff]
      refine ⟨h1, fun hb => ?_, fun hm => ?_⟩
      · exact h2 (by simpa using hb)
      · exact h3 (by simpa using hm)
  refine ⟨key, fun hne => ?_, fun hb hm => ?_⟩
  · rcases h : matches_target p t with - | -
    · rfl
    · exact absurd (key.mp h).1 hne
  · rw [key]
    simp [hb, hm]

/-- C8 witness: call mismatch rejects at a concrete spot, and an
unrestricted target matches on call alone. -/
theorem C8_matches_target_spec_witness :
    matches_target
      { freq := "14074.0", call := "VK3ABC", datetime := "", info := "",
        spotter := "", band := "20m", mode := "FT8" }
      { call := "W1AW", bands := ["20m"], modes := ["FT8"] } = false ∧
    matches_target
      { freq := "14074.0", call := "VK3ABC", datetime := "", info := "",
        spotter := "", band := "20m", mode := "FT8" }
      { call := "vk3abc", bands := [], modes := [] } = true :=
  ⟨(C8_matches_target_spec _ _).2.1 (by decide),
   ((C8_matches_target_spec _ _).2.2 rfl rfl).mpr (by decide)⟩

theorem pow10_cast_pos (k : Nat) : (0 : ℚ) < (((10 ^ k : Nat) : Int) : ℚ) := by
  have h1 : 0 < (10 : Nat) ^ k := pow_pos (by norm_num) k
  exact_mod_cast h1

theorem DecNum.intLe_iff (b : Int) (d : DecNum) :
    DecNum.intLe b d = true ↔ (b : ℚ) ≤ d.toRat := by
  unfold DecNum.intLe DecNum.toRat
  by_cases h : 0 ≤ d.ex
  · rw [if_pos h, decide_eq_true_iff]
    obtain ⟨k, hk⟩ : ∃ k : Nat, d.ex = (k : ℤ) := ⟨d.ex.toNat, (Int.toNat_of_nonneg h).symm⟩
    rw [hk]
    simp only [Int.toNat_natCast]
    rw [zpow_natCast]
    rw [show (d.mant : ℚ) * (10 : ℚ) ^ k = ((d.mant * ((10 ^ k : Nat) : Int) : Int) : ℚ) from by
      push_cast
      ring]
    exact Int.cast_le.symm
  · rw [if_neg h, decide_eq_true_iff]
    obtain ⟨k, hk⟩ : ∃ k : Nat, d.ex = -(k : ℤ) ∧ (-d.ex).toNat = k := by
      refine ⟨(-d.ex).toNat, ?_, rfl⟩
      omega
    rw [hk.2, hk.1]
    rw [zpow_neg, zpow_natCast, ← div_eq_mul_inv]
    rw [le_div_iff₀ (by positivity)]
    rw [show (b : ℚ) * (10 : ℚ) ^ k = ((b * ((10 ^ k : Nat) : Int) : Int) : ℚ) from by
      push_cast
      ring]
    exact Int.cast_le.symm

theorem DecNum.leInt_iff (d : DecNum) (b : Int) :
    DecNum.leInt d b = true ↔ d.toRat ≤ (b : ℚ) := by
  unfold DecNum.leInt DecNum.toRat
  by_cases h : 0 ≤ d.ex
  · rw [if_pos h, decide_eq_true_iff]
    obtain ⟨k, hk⟩ : ∃ k : Nat, d.ex = (k : ℤ) := ⟨d.ex.toNat, (Int.toNat_of_nonneg h).symm⟩
    rw [hk]
    simp only [Int.toNat_natCast]
    rw [zpow_natCast]
    rw [show (d.mant : ℚ) * (10 : ℚ) ^ k = ((d.mant * ((10 ^ k : Nat) : Int) : Int) : ℚ) from by
      push_cast
      ring]
    exact Int.cast_le.symm
  · rw [if_neg h, decide_eq_true_iff]
    obtain ⟨k, hk⟩ : ∃ k : Nat, d.ex = -(k : ℤ) ∧ (-d.ex).toNat = k := by
      refine ⟨(-d.ex).toNat, ?_, rfl⟩
      omega
    rw [hk.2, hk.1]
    rw [zpow_neg, zpow_natCast, ← div_eq_mul_inv]
    rw [div_le_iff₀ (by positivity)]
    rw [show (b : ℚ) * (10 : ℚ) ^ k = ((b * ((10 ^ k : Nat) : Int) : Int) : ℚ) from by
      push_cast
      ring]
    exact Int.cast_le.symm

theorem band_cond_true (d : DecNum) (a b : Int)
    (h1 : (a : ℚ) ≤ d.toRat) (h2 : d.toRat ≤ (b : ℚ)) :
    (DecNum.intLe a d && DecNum.leInt d b) = true := by
  rw [Bool.and_eq_true, DecNum.intLe_iff, DecNum.leInt_iff]
  exact ⟨h1, h2⟩

theorem band_cond_false (d : DecNum) (a b : Int)
    (h : d.toRat < (a : ℚ) ∨ (b : ℚ) < d.toRat) :
    (DecNum.intLe a d && DecNum.leInt d b) = false := by
  refine Bool.eq_false_iff.mpr (fun hc => ?_)
  rw [Bool.and_eq_true, DecNum.intLe_iff, DecNum.leInt_iff] at hc
  rcases h with h | h
  · exact absurd hc.1 (not_le.mpr h)
  · exact absurd hc.2 (not_le.mpr h)

theorem find?_bands_of_mem (d : DecNum) (low high : Int) (label : String)
    (hmem : (low, high, label) ∈ bands)
    (h1 : (low : ℚ) ≤ d.toRat) (h2 : d.toRat ≤ (high : ℚ)) :
    bands.find? (fun b => DecNum.intLe b.1 d && DecNum.leInt d b.2.1) =
      some (low, high, label) := by
  fin_cases hmem
  · -- 160m
    have ct := band_cond_true d 1800 2000 h1 h2
    simp only [bands, List.find?, ct]
  · -- 80m
    have c0 := band_cond_false d 1800 2000 (Or.inr (lt_of_lt_of_le (by norm_num) h1))
    have ct := band_cond_true d 3500 3800 h1 h2
    simp only [bands, List.find?, c0, ct]
  · -- 60m
    have c0 := band_cond_false d 1800 2000 (Or.inr (lt_of_lt_of_le (by norm_num) h1))
    have c1 := band_cond_false d 3500 3800 (Or.inr (lt_of_lt_of_le (by norm_num) h1))
    have ct := band_cond_true d 5300 5400 h1 h2
    simp only [bands, List.find?, c0, c1, ct]
  · -- 40m
    have c0 := band_cond_false d 1800 2000 (Or.inr (lt_of_lt_of_le (by norm_num) h1))
    have c1 := band_cond_false d 3500 3800 (Or.inr (lt_of_lt_of_le (by norm_num) h1))
    have c2 := band_cond_false d 5300 5400 (Or.inr (lt_of_lt_of_le (by norm_num) h1))
    have ct := band_cond_true d 7000 7200 h1 h2
    simp only [bands, List.find?, c0, c1, c2, ct]
  · -- 30m
    have c0 := band_cond_false d 1800 2000 (Or.inr (lt_of_lt_of_le (by norm_num) h1))
    have c1 := band_cond_false d 3500 3800 (Or.inr (lt_of_lt_of_le (by norm_num) h1))
    have c2 := band_cond_false d 5300 5400 (Or.inr (lt_of_lt_of_le (by norm_num) h1))
    have c3 := band_cond_false d 7000 7200 (Or.inr (lt_of_lt_of_le (by norm_num) h1))
    have ct := band_cond_true d 10100 10150 h1 h2
    simp only [bands, List.find?, c0, c1, c2, c3, ct]
  · -- 20m
    have c0 := band_cond_false d 1800 2000 (Or.inr (lt_of_lt_of_le (by norm_num) h1))
    have c1 := band_cond_false d 3500 3800 (Or.inr (lt_of_lt_of_le (by norm_num) h1))
    have c2 := band_cond_false d 5300 5400 (Or.inr (lt_of_lt_of_le (by norm_num) h1))
    have c3 := band_cond_false d 7000 7200 (Or.inr (lt_of_lt_of_le (by norm_num) h1))
    have c4 := band_cond_false d 10100 10150 (Or.inr (lt_of_lt_of_le (by norm_num) h1))
    have ct := band_cond_true d 14000 14350 h1 h2
    simp only [bands, List.find?, c0, c1, c2, c3, c4, ct]
  · -- 17m
    have c0 := band_cond_false d 1800 2000 (Or.inr (lt_of_lt_of_le (by norm_num) h1))
    have c1 := band_cond_false d 3500 3800 (Or.inr (lt_of_lt_of_le (by norm_num) h1))
    have c2 := band_cond_false d 5300 5400 (Or.inr (lt_of_lt_of_le (by norm_num) h1))
    have c3 := band_cond_false d 7000 7200 (Or.inr (lt_of_lt_of_le (by norm_num) h1))
    have c4 := band_cond_false d 10100 10150 (Or.inr (lt_of_lt_of_le (by norm_num) h1))
    have c5 := band_cond_false d 14000 14350 (Or.inr (lt_of_lt_of_le (by norm_num) h1))
    have ct := band_cond_true d 18068 18168 h1 h2
    simp only [bands, List.find?, c0, c1, c2, c3, c4, c5, ct]
  · -- 15m
    have c0 := band_cond_false d 1800 2000 (Or.inr (lt_of_lt_of_le (by norm_num) h1))
    have c1 := band_cond_false d 3500 3800 (Or.inr (lt_of_lt_of_le (by norm_num) h1))
    have c2 := band_cond_false d 5300 5400 (Or.inr (lt_of_lt_of_le (by norm_num) h1))
    have c3 := band_cond_false d 7000 7200 (Or.inr (lt_of_lt_of_le (by norm_num) h1))
    have c4 := band_cond_false d 10100 10150 (Or.inr (lt_of_lt_of_le (by norm_num) h1))
    have c5 := band_cond_false d 14000 14350 (Or.inr (lt_of_lt_of_le (by norm_num) h1))
    have c6 := band_cond_false d 18068 18168 (Or.inr (lt_of_lt_of_le (by norm_num) h1))
    have ct := band_cond_true d 21000 21450 h1 h2
    simp only [bands, List.find?, c0, c1, c2, c3, c4, c5, c6, ct]
  · -- 12m
    have c0 := band_cond_false d 1800 2000 (Or.inr (lt_of_lt_of_le (by norm_num) h1))
    have c1 := band_cond_false d 3500 3800 (Or.inr (lt_of_lt_of_le (by norm_num) h1))
    have c2 := band_cond_false d 5300 5400 (Or.inr (lt_of_lt_of_le (by norm_num) h1))
    have c3 := band_cond_false d 7000 7200 (Or.inr (lt_of_lt_of_le (by norm_num) h1))
    have c4 := band_cond_false d 10100 10150 (Or.inr (lt_of_lt_of_le (by norm_num) h1))
    have c5 := band_cond_false d 14000 14350 (Or.inr (lt_of_lt_of_le (by norm_num) h1))
    have c6 := band_cond_false d 18068 18168 (Or.inr (lt_of_lt_of_le (by norm_num) h1))
    have c7 := band_cond_false d 21000 21450 (Or.inr (lt_of_lt_of_le (by norm_num) h1))
    have ct := band_cond_true d 24890 24990 h1 h2
    simp only [bands, List.find?, c0, c1, c2, c3, c4, c5, c6, c7, ct]
  · -- 10m
    have c0 := band_cond_false d 1800 2000 (Or.inr (lt_of_lt_of_le (by norm_num) h1))
    have c1 := band_cond_false d 3500 3800 (Or.inr (lt_of_lt_of_le (by norm_num) h1))
    have c2 := band_cond_false d 5300 5400 (Or.inr (lt_of_lt_of_le (by norm_num) h1))
    have c3 := band_cond_false d 7000 7200 (Or.inr (lt_of_lt_of_le (by norm_num) h1))
    have c4 := band_cond_false d 10100 10150 (Or.inr (lt_of_lt_of_le (by norm_num) h1))
    have c5 := band_cond_false d 14000 14350 (Or.inr (lt_of_lt_of_le (by norm_num) h1))
    have c6 := band_cond_false d 18068 18168 (Or.inr (lt_of_lt_of_le (by norm_num) h1))
    have c7 := band_cond_false d 21000 21450 (Or.inr (lt_of_lt_of_le (by norm_num) h1))
    have c8 := band_cond_false d 24890 24990 (Or.inr (lt_of_lt_of_le (by norm_num) h1))
    have ct := band_cond_true d 28000 29700 h1 h2
    simp only [bands, List.find?, c0, c1, c2, c3, c4, c5, c6, c7, c8, ct]
  · -- 6m
    have c0 := band_cond_false d 1800 2000 (Or.inr (lt_of_lt_of_le (by norm_num) h1))
    have c1 := band_cond_false d 3500 3800 (Or.inr (lt_of_lt_of_le (by norm_num) h1))
    have c2 := band_cond_false d 5300 5400 (Or.inr (lt_of_lt_of_le (by norm_num) h1))
    have c3 := band_cond_false d 7000 7200 (Or.inr (lt_of_lt_of_le (by norm_num) h1))
    have c4 := band_cond_false d 10100 10150 (Or.inr (lt_of_lt_of_le (by norm_num) h1))
    have c5 := band_cond_false d 14000 14350 (Or.inr (lt_of_lt_of_le (by norm_num) h1))
    have c6 := band_cond_false d 18068 18168 (Or.inr (lt_of_lt_of_le (by norm_num) h1))
    have c7 := band_cond_false d 21000 21450 (Or.inr (lt_of_lt_of_le (by norm_num) h1))
    have c8 := band_cond_false d 24890 24990 (Or.inr (lt_of_lt_of_le (by norm_num) h1))
    have c9 := band_cond_false d 28000 29700 (Or.inr (lt_of_lt_of_le (by norm_num) h1))
    have ct := band_cond_true d 50000 54000 h1 h2
    simp only [bands, List.find?, c0, c1, c2, c3, c4, c5, c6, c7, c8, c9, ct]

theorem find?_bands_none (d : DecNum)
    (hout : ∀ low high : Int, ∀ label : String, (low, high, label) ∈ bands →
      d.toRat < (low : ℚ) ∨ (high : ℚ) < d.toRat) :
    bands.find? (fun b => DecNum.intLe b.1 d && DecNum.leInt d b.2.1) = none := by
  have c0 := band_cond_false d 1800 2000 (hout 1800 2000 "160m" (by simp [bands]))
  have c1 := band_cond_false d 3500 3800 (hout 3500 3800 "80m" (by simp [bands]))
  have c2 := band_cond_false d 5300 5400 (hout 5300 5400 "60m" (by simp [bands]))
  have c3 := band_cond_false d 7000 7200 (hout 7000 7200 "40m" (by simp [bands]))
  have c4 := band_cond_false d 10100 10150 (hout 10100 10150 "30m" (by simp [bands]))
  have c5 := band_cond_false d 14000 14350 (hout 14000 14350 "20m" (by simp [bands]))
  have c6 := band_cond_false d 18068 18168 (hout 18068 18168 "17m" (by simp [bands]))
  have c7 := band_cond_false d 21000 21450 (hout 21000 21450 "15m" (by simp [bands]))
  have c8 := band_cond_false d 24890 24990 (hout 24890 24990 "12m" (by simp [bands]))
  have c9 := band_cond_false d 28000 29700 (hout 28000 29700 "10m" (by simp [bands]))
  have c10 := band_cond_false d 50000 54000 (hout 50000 54000 "6m" (by simp [bands]))
  simp only [bands, List.find?, c0, c1, c2, c3, c4, c5, c6, c7, c8, c9, c10]

/-- C4: `freq_to_band` maps a parsed frequency lying in a table range
(both endpoints included) to the label of that range, returns `"?"` for a
parsed frequency outside every range and for unparseable input, and
satisfies the boundary examples `"14074" ↦ "20m"`, `"14350" ↦ "20m"`,
`"14351" ↦ "?"`, `"notanumber" ↦ "?"`. -/
theorem C4_freq_to_band_table :
    (∀ (s : String) (d : DecNum), parseFloat s = some d →
      ∀ low high : Int, ∀ label : String, (low, high, label) ∈ bands →
        (low : ℚ) ≤ d.toRat → d.toRat ≤ (high : ℚ) → freq_to_band s = label) ∧
    (∀ (s : String) (d : DecNum), parseFloat s = some d →
      (∀ low high : Int, ∀ label : String, (low, high, label) ∈ bands →
        d.toRat < (low : ℚ) ∨ (high : ℚ) < d.toRat) →
      freq_to_band s = "?") ∧
    (∀ s : String, parseFloat s = none → freq_to_band s = "?") ∧
    freq_to_band "14074" = "20m" ∧ freq_to_band "14350" = "20m" ∧
    freq_to_band "14351" = "?" ∧ freq_to_band "notanumber" = "?" := by
  refine ⟨fun s d hp low high label hmem h1 h2 => ?_, fun s d hp hout => ?_,
    fun s hp => ?_, by decide, by decide, by decide, by decide⟩
  · unfold freq_to_band
    rw [hp]
    show (match bands.find? (fun b => DecNum.intLe b.1 d && DecNum.leInt d b.2.1) with
      | some b => b.2.2
      | none => "?") = label
    rw [find?_bands_of_mem d low high label hmem h1 h2]
  · unfold freq_to_band
    rw [hp]
    show (match bands.find? (fun b => DecNum.intLe b.1 d && DecNum.leInt d b.2.1) with
      | some b => b.2.2
      | none => "?") = "?"
    rw [find?_bands_none d hout]
  · unfold freq_to_band
    rw [hp]

/-- C4 witness: the in-range and out-of-range branches applied to the
parses of `"14074"` and `"99999"`. -/
theorem C4_freq_to_band_table_witness :
    freq_to_band "14074" = "20m" ∧ freq_to_band "99999" = "?" := by
  constructor
  · exact C4_freq_to_band_table.1 "14074" ⟨14074, 0⟩ (by decide) 14000 14350 "20m"
      (by decide) (by norm_num [DecNum.toRat]) (by norm_num [DecNum.toRat])
  · refine C4_freq_to_band_table.2.1 "99999" ⟨99999, 0⟩ (by decide) ?_
    intro low high label hmem
    fin_cases hmem <;> norm_num [DecNum.toRat]

theorem watchdog_check_false (now la : Int) :
    (decide (now - (if now - la ≥ keepalive_interval then now else la) ≥ max_inactive)) = false := by
  rw [decide_eq_false_iff_not]
  by_cases hk : now - la ≥ keepalive_interval
  · rw [if_pos hk]
    unfold max_inactive
    omega
  · rw [if_neg hk]
    unfold keepalive_interval at hk
    unfold max_inactive
    omega

theorem loopStep_closed (targets : List Target) (w : Int) (s : ListenerState)
    (δ : Int) (line : Option String) :
    ((loopStep targets w s δ line).1).closed = s.closed := by
  by_cases hc : s.closed = true
  · simp only [loopStep, hc, if_true]
  · rw [Bool.not_eq_true] at hc
    cases line with
    | none =>
      simp only [loopStep, hc, Bool.false_eq_true, if_false]
      exact watchdog_check_false (s.now + δ) s.lastActivity
    | some raw =>
      by_cases ht : stripWS raw = ""
      · simp only [loopStep, hc, Bool.false_eq_true, if_false, ht, if_true]
      · simp only [loopStep, hc, Bool.false_eq_true, if_false, ht, if_false]
        exact watchdog_check_false (s.now + δ) (s.now + δ)

/-- C1: the claim fails on the code.  The keepalive branch runs before the
watchdog test and refreshes `last_activity` whenever inactivity reaches
the 10-minute keepalive interval, so the inactivity seen by the watchdog
test is always below 15 minutes: no iteration of the monitoring loop ever
closes the session, whatever the trace — in particular under unbounded
silence.  Concretely, after twenty consecutive 60-second read timeouts
(20 minutes of silence, beyond `max_inactive`) the session is still open,
contradicting the comment in the source that 15 minutes without spots
forces a reconnect. -/
theorem C1_watchdog_never_fires :
    (∀ (targets : List Target) (w : Int) (s : ListenerState) (δ : Int) (line : Option String),
      ((loopStep targets w s δ line).1).closed = s.closed) ∧
    (∀ (targets : List Target) (w : Int) (steps : List (Int × Option String)) (s : ListenerState),
      (runSteps targets w s steps).closed = s.closed) ∧
    (runSteps [] 30 (initState 0)
      (List.replicate 20 ((60 : Int), (none : Option String)))).closed = false ∧
    (runSteps [] 30 (initState 0)
      (List.replicate 20 ((60 : Int), (none : Option String)))).now = 1200 := by
  have hrun : ∀ (targets : List Target) (w : Int) (steps : List (Int × Option String))
      (s : ListenerState), (runSteps targets w s steps).closed = s.closed := by
    intro targets w steps
    induction steps with
    | nil => intro s; rfl
    | cons p rest ih =>
      intro s
      show (runSteps targets w (loopStep targets w s p.1 p.2).1 rest).closed = s.closed
      rw [ih, loopStep_closed]
  exact ⟨loopStep_closed, hrun, by decide, by decide⟩

/-- Branch equations for `should_send`. -/
theorem should_send_none (m : CallMap) (call : String) (w now : Int)
    (h : lookupCall m call = none) :
    should_send m call w now = (true, setCall m call now) := by
  unfold should_send
  rw [h]

theorem should_send_stale (m : CallMap) (call : String) (w now last : Int)
    (h : lookupCall m call = some last) (hge : ¬now - last < w * 60) :
    should_send m call w now = (true, setCall m call now) := by
  unfold should_send
  rw [h]
  show (if now - last < w * 60 then ((false, m) : Bool × CallMap)
      else (true, setCall m call now)) = (true, setCall m call now)
  rw [if_neg hge]

theorem should_send_fresh (m : CallMap) (call : String) (w now last : Int)
    (h : lookupCall m call = some last) (hlt : now - last < w * 60) :
    should_send m call w now = (false, m) := by
  unfold should_send
  rw [h]
  show (if now - last < w * 60 then ((false, m) : Bool × CallMap)
      else (true, setCall m call now)) = (false, m)
  rw [if_pos hlt]

/-- Send instants of the messages for normalized call `c` in a tagged
output trace, in emission order. -/
def timesFor (c : String) (out : List (Int × Msg)) : List Int :=
  (out.filter (fun p => normalize_call p.2.call = c)).map Prod.fst

/-- Predicate `Sep w d ts`: consecutive elements of `ts` are at least `w` apart,
and the first is at least `w` above the anchor `d` when one is present. -/
def Sep (w : Int) : Option Int → List Int → Prop
  | _, [] => True
  | d, t :: ts => (∀ p, d = some p → p + w ≤ t) ∧ Sep w (some t) ts

/-- Last element of a list, defaulting to the anchor. -/
def lastOr (d : Option Int) : List Int → Option Int
  | [] => d
  | t :: ts => lastOr (some t) ts

theorem lastOr_append (d : Option Int) (l1 l2 : List Int) :
    lastOr d (l1 ++ l2) = lastOr (lastOr d l1) l2 := by
  induction l1 generalizing d with
  | nil => rfl
  | cons t ts ih => exact ih (some t)

theorem lastOr_replicate (d : Option Int) (k : Nat) (now : Int) :
    lastOr d (List.replicate k now) = if k = 0 then d else some now := by
  induction k generalizing d with
  | zero => rfl
  | succ k ih =>
    rw [List.replicate_succ]
    show lastOr (some now) (List.replicate k now) = if k + 1 = 0 then d else some now
    rw [ih (some now), if_neg (Nat.succ_ne_zero k)]
    split_ifs <;> rfl

theorem sep_append (w : Int) (l1 : List Int) :
    ∀ (d : Option Int) (l2 : List Int), Sep w d l1 → Sep w (lastOr d l1) l2 →
      Sep w d (l1 ++ l2) := by
  induction l1 with
  | nil => intro d l2 _ h2; exact h2
  | cons t ts ih =>
    intro d l2 h1 h2
    exact ⟨h1.1, ih (some t) l2 h1.2 h2⟩

theorem sep_head_le (w : Int) (hw : 0 ≤ w) :
    ∀ (ts : List Int) (p : Int), Sep w (some p) ts → ∀ t ∈ ts, p + w ≤ t := by
  intro ts
  induction ts with
  | nil => intro p _ t ht; cases ht
  | cons a l ih =>
    intro p h t ht
    rcases List.mem_cons.mp ht with rfl | ht
    · exact h.1 p rfl
    · have := ih a h.2 t ht
      have := h.1 p rfl
      omega

theorem sep_pairwise (w : Int) (hw : 0 ≤ w) :
    ∀ (ts : List Int) (d : Option Int), Sep w d ts →
      List.Pairwise (fun a b => a + w ≤ b) ts := by
  intro ts
  induction ts with
  | nil => intro d _; exact List.Pairwise.nil
  | cons a l ih =>
    intro d h
    exact List.Pairwise.cons (sep_head_le w hw l a h.2) (ih (some a) h.2)

theorem sep_replicate (w : Int) (d : Option Int) (now : Int) (k : Nat)
    (h1 : ∀ p, 1 ≤ k → d = some p → p + w ≤ now)
    (h2 : 2 ≤ k → now + w ≤ now) :
    Sep w d (List.replicate k now) := by
  induction k generalizing d with
  | zero => trivial
  | succ k ih =>
    rw [List.replicate_succ]
    refine ⟨fun p hp => h1 p (by omega) hp, ?_⟩
    exact ih (some now)
      (fun p hk hp => by
        cases hp
        exact h2 (by omega))
      (fun hk => h2 (by omega))

theorem processTargets_facts (w : Int) (parsed : Spot) (now : Int) :
    ∀ (targets : List Target) (m : CallMap),
      (∀ msg ∈ (processTargets w parsed now targets m).2, msg = msgOfSpot parsed) ∧
      (∀ k, k ≠ normalize_call parsed.call →
        lookupCall (processTargets w parsed now targets m).1 k = lookupCall m k) ∧
      ((processTargets w parsed now targets m).2 = [] →
        (processTargets w parsed now targets m).1 = m) ∧
      ((processTargets w parsed now targets m).2 ≠ [] →
        lookupCall (processTargets w parsed now targets m).1 (normalize_call parsed.call) = some now ∧
        ∀ p, lookupCall m (normalize_call parsed.call) = some p → p + w * 60 ≤ now) ∧
      (2 ≤ (processTargets w parsed now targets m).2.length → w * 60 ≤ 0) := by
  intro targets
  induction targets with
  | nil =>
    intro m
    refine ⟨by simp [processTargets], fun k _ => rfl, fun _ => rfl, by simp [processTargets], ?_⟩
    intro h
    simp [processTargets] at h
  | cons t rest ih =>
    intro m
    by_cases hm : matches_target parsed t = true
    · cases hl : lookupCall m (normalize_call parsed.call) with
      | none =>
        have hss := should_send_none m (normalize_call parsed.call) w now hl
        have hr : processTargets w parsed now (t :: rest) m =
            ((processTargets w parsed now rest (setCall m (normalize_call parsed.call) now)).1,
              msgOfSpot parsed ::
                (processTargets w parsed now rest (setCall m (normalize_call parsed.call) now)).2) := by
          simp only [processTargets, hm, if_true, hss]
        obtain ⟨ih1, ih2, ih3, ih4, ih5⟩ := ih (setCall m (normalize_call parsed.call) now)
        rw [hr]
        refine ⟨?_, ?_, ?_, ?_, ?_⟩
        · intro msg hmsg
          rcases List.mem_cons.mp hmsg with h | h
          · exact h
          · exact ih1 msg h
        · intro k hk
          rw [ih2 k hk, lookup_setCall_ne _ _ _ _ hk]
        · intro h
          exact absurd h (by simp)
        · intro _
          refine ⟨?_, ?_⟩
          · by_cases hrec : (processTargets w parsed now rest
                (setCall m (normalize_call parsed.call) now)).2 = []
            · rw [ih3 hrec]
              exact lookup_setCall_self m _ now
            · exact (ih4 hrec).1
          · intro p hp
            cases hp
        · intro h
          have hne : (processTargets w parsed now rest
              (setCall m (normalize_call parsed.call) now)).2 ≠ [] := by
            intro hnil
            rw [hnil] at h
            simp at h
          have := (ih4 hne).2 now (lookup_setCall_self m _ now)
          omega
      | some last =>
        by_cases hcmp : now - last < w * 60
        · have hss := should_send_fresh m (normalize_call parsed.call) w now last hl hcmp
          have hr : processTargets w parsed now (t :: rest) m =
              processTargets w parsed now rest m := by
            simp only [processTargets, hm, if_true, hss, Bool.false_eq_true, if_false]
          rw [hr]
          have ihm := ih m
          rw [hl] at ihm
          exact ihm
        · have hss := should_send_stale m (normalize_call parsed.call) w now last hl hcmp
          have hr : processTargets w parsed now (t :: rest) m =
              ((processTargets w parsed now rest (setCall m (normalize_call parsed.call) now)).1,
                msgOfSpot parsed ::
                  (processTargets w parsed now rest (setCall m (normalize_call parsed.call) now)).2) := by
            simp only [processTargets, hm, if_true, hss]
          obtain ⟨ih1, ih2, ih3, ih4, ih5⟩ := ih (setCall m (normalize_call parsed.call) now)
          rw [hr]
          refine ⟨?_, ?_, ?_, ?_, ?_⟩
          · intro msg hmsg
            rcases List.mem_cons.mp hmsg with h | h
            · exact h
            · exact ih1 msg h
          · intro k hk
            rw [ih2 k hk, lookup_setCall_ne _ _ _ _ hk]
          · intro h
            exact absurd h (by simp)
          · intro _
            refine ⟨?_, ?_⟩
            · by_cases hrec : (processTargets w parsed now rest
                  (setCall m (normalize_call parsed.call) now)).2 = []
              · rw [ih3 hrec]
                exact lookup_setCall_self m _ now
              · exact (ih4 hrec).1
            · intro p hp
              cases hp
              omega
          · intro h
            have hne : (processTargets w parsed now rest
                (setCall m (normalize_call parsed.call) now)).2 ≠ [] := by
              intro hnil
              rw [hnil] at h
              simp at h
            have := (ih4 hne).2 now (lookup_setCall_self m _ now)
            omega
    · have hmf : matches_target parsed t = false := Bool.not_eq_true _ ▸ Bool.eq_false_iff.mpr hm
      have hr : processTargets w parsed now (t :: rest) m =
          processTargets w parsed now rest m := by
        simp only [processTargets, hmf, Bool.false_eq_true, if_false]
      rw [hr]
      exact ih m


theorem timesFor_append (c : String) (l1 l2 : List (Int × Msg)) :
    timesFor c (l1 ++ l2) = timesFor c l1 ++ timesFor c l2 := by
  simp [timesFor, List.filter_append]

theorem timesFor_map_const (c : String) (now : Int) (parsed : Spot) :
    ∀ msgs : List Msg, (∀ msg ∈ msgs, msg = msgOfSpot parsed) →
      timesFor c (msgs.map (fun x => (now, x))) =
        if normalize_call parsed.call = c then List.replicate msgs.length now else [] := by
  intro msgs
  induction msgs with
  | nil =>
    intro _
    show ([] : List Int) = _
    split_ifs <;> rfl
  | cons a l ihl =>
    intro hall
    have ha : a = msgOfSpot parsed := hall a (List.mem_cons_self a l)
    have hrest : ∀ msg ∈ l, msg = msgOfSpot parsed :=
      fun msg h => hall msg (List.mem_cons_of_mem a h)
    subst ha
    have hthis := ihl hrest
    simp only [timesFor] at hthis
    by_cases hc : normalize_call parsed.call = c
    · simp [timesFor, List.filter_cons, msgOfSpot, hc, hthis, List.replicate_succ]
    · simp [timesFor, List.filter_cons, msgOfSpot, hc, hthis]

theorem processLine_facts (targets : List Target) (w : Int) (m : CallMap) (now : Int)
    (text : String) (c : String) :
    Sep (w * 60) (lookupCall m c)
      (timesFor c ((processLine targets w m now text).2.map (fun x => (now, x)))) ∧
    lookupCall (processLine targets w m now text).1 c =
      lastOr (lookupCall m c)
        (timesFor c ((processLine targets w m now text).2.map (fun x => (now, x)))) := by
  unfold processLine
  by_cases hcc : startsWith "CC" text = true
  · rw [if_pos hcc]
    cases hparse : parse_ve7cc_line text with
    | none => exact ⟨trivial, rfl⟩
    | some parsed =>
      show Sep (w * 60) (lookupCall m c)
          (timesFor c ((processTargets w parsed now targets m).2.map (fun x => (now, x)))) ∧
        lookupCall (processTargets w parsed now targets m).1 c =
          lastOr (lookupCall m c)
            (timesFor c ((processTargets w parsed now targets m).2.map (fun x => (now, x))))
      obtain ⟨f1, f2, f3, f4, f5⟩ := processTargets_facts w parsed now targets m
      rw [timesFor_map_const c now parsed _ f1]
      by_cases hc : normalize_call parsed.call = c
      · subst hc
        rw [if_pos rfl]
        constructor
        · apply sep_replicate
          · intro p hk hp
            have hne : (processTargets w parsed now targets m).2 ≠ [] := by
              intro h0
              rw [h0] at hk
              simp at hk
            exact (f4 hne).2 p hp
          · intro h2
            have := f5 h2
            omega
        · rw [lastOr_replicate]
          by_cases hlen : (processTargets w parsed now targets m).2.length = 0
          · rw [if_pos hlen, f3 (List.length_eq_zero.mp hlen)]
          · rw [if_neg hlen]
            refine (f4 (fun h0 => hlen ?_)).1
            rw [h0]
            rfl
      · rw [if_neg hc]
        exact ⟨trivial, f2 c (fun h => hc h.symm)⟩
  · rw [Bool.not_eq_true] at hcc
    simp only [hcc, Bool.false_eq_true, if_false]
    exact ⟨trivial, rfl⟩

theorem runLines_facts (targets : List Target) (w : Int) :
    ∀ (events : List (Int × String)) (m : CallMap) (c : String),
      Sep (w * 60) (lookupCall m c) (timesFor c (runLines targets w m events).2) ∧
      lookupCall (runLines targets w m events).1 c =
        lastOr (lookupCall m c) (timesFor c (runLines targets w m events).2) := by
  intro events
  induction events with
  | nil => intro m c; exact ⟨trivial, rfl⟩
  | cons e rest ih =>
    intro m c
    obtain ⟨now, text⟩ := e
    have hline := processLine_facts targets w m now text c
    obtain ⟨ihs, ihl⟩ := ih (processLine targets w m now text).1 c
    show Sep (w * 60) (lookupCall m c)
        (timesFor c ((processLine targets w m now text).2.map (fun x => (now, x)) ++
          (runLines targets w (processLine targets w m now text).1 rest).2)) ∧
      lookupCall (runLines targets w (processLine targets w m now text).1 rest).1 c =
        lastOr (lookupCall m c)
          (timesFor c ((processLine targets w m now text).2.map (fun x => (now, x)) ++
            (runLines targets w (processLine targets w m now text).1 rest).2))
    rw [timesFor_append]
    constructor
    · apply sep_append
      · exact hline.1
      · rw [← hline.2]
        exact ihs
    · rw [lastOr_append, ← hline.2]
      exact ihl

/-- C3: in any run of the listener, the send instants of any two
notifications for the same normalized call are at least the dedup window
apart — however many targets match a spot and however many matching lines
arrive — and in the end-to-end scenario the single configured line
produces exactly one notification, with band `20m` and mode `FT8`, while
feeding the identical line again 29 minutes later produces no further
notification. -/
theorem C3_one_notification_per_window :
    ((runLines [⟨"VK3ABC", ["20m"], ["FT8"]⟩] 30 []
        [((0 : Int), "CC^14074.0^VK3ABC^2024-01-01^10:00^FT8 CQ^W1AW")]).2 =
      [((0 : Int),
        { call := "VK3ABC", freq := "14074.0", band := "20m", mode := "FT8",
          datetime := "2024-01-01 10:00", info := "FT8 CQ", spotter := "W1AW" })]) ∧
    ((runLines [⟨"VK3ABC", ["20m"], ["FT8"]⟩] 30 []
        [((0 : Int), "CC^14074.0^VK3ABC^2024-01-01^10:00^FT8 CQ^W1AW"),
         ((1740 : Int), "CC^14074.0^VK3ABC^2024-01-01^10:00^FT8 CQ^W1AW")]).2 =
      [((0 : Int),
        { call := "VK3ABC", freq := "14074.0", band := "20m", mode := "FT8",
          datetime := "2024-01-01 10:00", info := "FT8 CQ", spotter := "W1AW" })]) ∧
    (∀ (targets : List Target) (w : Int) (events : List (Int × String)) (c : String),
      0 ≤ w →
      List.Pairwise (fun a b => a + w * 60 ≤ b)
        (timesFor c (runLines targets w [] events).2)) := by
  refine ⟨by decide, by decide, fun targets w events c hw => ?_⟩
  exact sep_pairwise (w * 60) (by omega) _ _ (runLines_facts targets w events [] c).1

/-- C3 witness: the separation bound applied to a run with two sends 31
minutes apart. -/
theorem C3_one_notification_per_window_witness :
    List.Pairwise (fun a b => a + 30 * 60 ≤ b)
      (timesFor "VK3ABC" (runLines [⟨"VK3ABC", ["20m"], ["FT8"]⟩] 30 []
        [((0 : Int), "CC^14074.0^VK3ABC^2024-01-01^10:00^FT8 CQ^W1AW"),
         ((1860 : Int), "CC^14074.0^VK3ABC^2024-01-01^10:00^FT8 CQ^W1AW")]).2) :=
  C3_one_notification_per_window.2.2 _ 30 _ "VK3ABC" (by decide)

end DXW
